import Mathlib

/-!
Verification of the live audio transcription core of the VideoSum repository.

The embedding covers:
* the Audio Frame Encoder (`encode`, `createBlob` in the service file),
  including the JavaScript `Int16Array` store semantics and `btoa` base64;
* the Transcript Accumulator (`handleLiveUpdate`, `handleLiveStart` in the
  App component) and the other App-level writers of the live transcript;
* the `LiveTranscriber` lifecycle (`connect`, `start`/`onaudioprocess`,
  `stop`), with promise resolution modelled explicitly;
* `startLiveRecording` from the Controls component.

Floating-point samples are modelled as rationals: every value a `Float32Array`
can hold is a rational, and the only arithmetic performed on a sample is
`data[i] * 32768`, which is exact in binary floating point (a scaling by
2^15), so the rational model computes exactly the numbers the source does.
-/

namespace VideoSum

/-- Character `n` of the standard base64 alphabet (`A-Z`, `a-z`, `0-9`, `+`, `/`),
as used by `btoa`. -/
def b64Char (n : Nat) : Char :=
  if n < 26 then Char.ofNat (65 + n)
  else if n < 52 then Char.ofNat (97 + (n - 26))
  else if n < 62 then Char.ofNat (48 + (n - 52))
  else if n = 62 then '+'
  else '/'

/-- Value of a base64 alphabet character, the inverse of `b64Char`
(used by base64 decoding). -/
def b64Val (c : Char) : Nat :=
  if 65 ≤ c.toNat ∧ c.toNat ≤ 90 then c.toNat - 65
  else if 97 ≤ c.toNat ∧ c.toNat ≤ 122 then c.toNat - 97 + 26
  else if 48 ≤ c.toNat ∧ c.toNat ≤ 57 then c.toNat - 48 + 52
  else if c = '+' then 62
  else 63

/-- Base64 encoding of a byte sequence with `=` padding: the behaviour of
`btoa` applied to the binary string the source builds from the bytes. -/
def base64Encode : List Nat → List Char
  | [] => []
  | [a] => [b64Char (a / 4), b64Char (a % 4 * 16), '=', '=']
  | [a, b] => [b64Char (a / 4), b64Char (a % 4 * 16 + b / 16), b64Char (b % 16 * 4), '=']
  | a :: b :: c :: rest =>
      b64Char (a / 4) :: b64Char (a % 4 * 16 + b / 16) ::
        b64Char (b % 16 * 4 + c / 64) :: b64Char (c % 64) :: base64Encode rest

/-- Standard base64 decoding of a padded base64 text back to bytes: the
decoding step named by the round-trip property. -/
def base64Decode : List Char → List Nat
  | c1 :: c2 :: c3 :: c4 :: rest =>
      if c3 = '=' then [b64Val c1 * 4 + b64Val c2 / 16]
      else if c4 = '=' then
        [b64Val c1 * 4 + b64Val c2 / 16, b64Val c2 % 16 * 16 + b64Val c3 / 4]
      else
        (b64Val c1 * 4 + b64Val c2 / 16) :: (b64Val c2 % 16 * 16 + b64Val c3 / 4) ::
          (b64Val c3 % 4 * 64 + b64Val c4) :: base64Decode rest
  | _ => []

/-- `encode(bytes)` from the service source: build a binary string whose
char codes are the bytes, then apply `btoa`. -/
def encode (bytes : List Nat) : String := String.mk (base64Encode bytes)

/-- Truncation of a rational toward zero: what JavaScript `ToIntegerOrInfinity`
does to a finite number. -/
def ratTrunc (q : ℚ) : ℤ := if 0 ≤ q then ⌊q⌋ else ⌈q⌉

/-- JavaScript `ToInt16`, the conversion applied by the store
`int16[i] = data[i] * 32768` into an `Int16Array`: truncate toward zero, then
wrap modulo 2^16 into the signed range `[-32768, 32767]`. No clamping. -/
def toInt16 (q : ℚ) : ℤ :=
  if ratTrunc q % 65536 < 32768 then ratTrunc q % 65536 else ratTrunc q % 65536 - 65536

/-- The two underlying bytes of an `Int16Array` element holding `v`,
little-endian, as `new Uint8Array(int16.buffer)` exposes them on a
little-endian host. -/
def int16ToBytesLE (v : ℤ) : List Nat :=
  [(v % 65536).toNat % 256, (v % 65536).toNat / 256]

/-- The full backing byte buffer of an `Int16Array` holding `vs`. -/
def int16sToBytes : List ℤ → List Nat
  | [] => []
  | v :: vs => int16ToBytesLE v ++ int16sToBytes vs

/-- Reinterpret a byte sequence as little-endian signed 16-bit integers:
the reinterpretation step named by the round-trip property. -/
def decodeInt16LE : List Nat → List ℤ
  | b0 :: b1 :: rest =>
      (if (b0 : ℤ) + 256 * (b1 : ℤ) < 32768 then (b0 : ℤ) + 256 * (b1 : ℤ)
       else (b0 : ℤ) + 256 * (b1 : ℤ) - 65536) :: decodeInt16LE rest
  | _ => []

/-- The object `createBlob` returns: base64 payload plus MIME descriptor. -/
structure EncodedChunk where
  data : String
  mimeType : String
deriving DecidableEq

/-- `createBlob(data)` from the service source: store each sample times 32768
into an `Int16Array`, expose its buffer as bytes, base64-encode them, and tag
the result with the fixed MIME string. -/
def createBlob (data : List ℚ) : EncodedChunk :=
  let int16 := data.map fun s => toInt16 (s * 32768)
  { data := encode (int16sToBytes int16)
    mimeType := "audio/pcm;rate=16000" }

/-- The amended per-sample conversion of claim C1, written from the amended
claim's words: truncate `s * 32768` toward zero (floor when nonnegative,
ceiling when negative), then wrap modulo 2^16 into the signed 16-bit range
`[-32768, 32767]`; no clamping. -/
def truncWrap16 (s : ℚ) : ℤ :=
  ((if 0 ≤ s * 32768 then ⌊s * 32768⌋ else ⌈s * 32768⌉) + 32768) % 65536 - 32768

/-- `handleLiveUpdate` from the App component:
`setLiveText(prev => prev + (prev ? " " : "") + text)`.
A JavaScript string is truthy exactly when it is non-empty. -/
def handleLiveUpdate (prev text : String) : String :=
  prev ++ (if prev = "" then "" else " ") ++ text

/-- `handleLiveStart` from the App component: `setLiveText('')`. -/
def handleLiveStart (_prev : String) : String := ""

/-- The live transcript after a reset followed by delivering the fragments
`fs` in order, one `handleLiveUpdate` per fragment. -/
def accumulate (fs : List String) : String :=
  fs.foldl handleLiveUpdate (handleLiveStart "")

/-- The value the spec's accumulator property predicts (written from the
spec's words, for comparison with `accumulate`):
`f1 ++ " " ++ f2 ++ ... ++ " " ++ fn`, and `""` when there is no fragment. -/
def joinSpaced : List String → String
  | [] => ""
  | [f] => f
  | f :: rest => f ++ " " ++ joinSpaced rest

/-- The `inputTranscription` / `outputTranscription` payload of a live server
message: a piece of transcript text. -/
structure Transcription where
  text : String
deriving DecidableEq

/-- The `serverContent` payload of a live server message; either
transcription field may be absent. -/
structure ServerContent where
  inputTranscription : Option Transcription
  outputTranscription : Option Transcription
deriving DecidableEq

/-- An inbound live server message; `serverContent` may be absent. -/
structure LiveServerMessage where
  serverContent : Option ServerContent
deriving DecidableEq

/-- The `onmessage` callback of `LiveTranscriber.connect`, as the list of
`onUpdate` invocations it makes for one message:
`if (message.serverContent?.inputTranscription?.text) { this.onUpdate(text) }`
(an optional-chaining access followed by a truthiness test, so an absent
field or an empty string triggers nothing); the `outputTranscription` branch
is an empty placeholder. -/
def onMessageUpdates (m : LiveServerMessage) : List String :=
  match m.serverContent with
  | none => []
  | some sc =>
    match sc.inputTranscription with
    | none => []
    | some t => if t.text = "" then [] else [t.text]

/-- `VideoSourceType` from types.ts. -/
inductive VideoSourceType
  | upload
  | url
  | youtube
  | record
deriving DecidableEq

/-- The App-component events that write the `liveText` state, from the App
source: `handleLiveStart` (capture start), `handleLiveUpdate` (fragment
arrival), `handleVideoSelect` (a video is selected), `handleClear` (the video
is cleared), and `restoreHistoryItem` (a history entry is restored). -/
inductive AppEvent
  | liveStart
  | liveUpdate (text : String)
  | videoSelect (sourceType : VideoSourceType)
  | clear
  | restoreHistory
deriving DecidableEq

/-- How each App event transforms `liveText`, line by line from the App
source: `handleLiveStart` sets `''`; `handleLiveUpdate` appends;
`handleVideoSelect` sets `''` unless `data.sourceType === 'record'`;
`handleClear` and `restoreHistoryItem` set `''`. -/
def stepLiveText : AppEvent → String → String
  | .liveStart, _ => ""
  | .liveUpdate t, prev => handleLiveUpdate prev t
  | .videoSelect st, prev => if st = .record then prev else ""
  | .clear, _ => ""
  | .restoreHistory, _ => ""

/-- The App events that clear `liveText` (used to state the amended C9). -/
def clearsLiveText : AppEvent → Bool
  | .liveStart => true
  | .liveUpdate _ => false
  | .videoSelect st => decide (st ≠ .record)
  | .clear => true
  | .restoreHistory => true

/-- The possible states of the session promise `ai.live.connect(...)` returns:
pending (Connecting), resolved with an open session (Open), or rejected
(connection failure). -/
inductive PromiseState
  | pending
  | resolved
  | rejected
deriving DecidableEq

/-- One `LiveTranscriber` instance together with the observable effects the
claims are about: the fields `scriptProcessor`, `inputAudioContext`,
`sessionPromise` (held or null; when held, the state of the underlying
promise), the `.then` send callbacks queued while the promise is pending,
the chunks actually passed to `session.sendRealtimeInput`, and the
accumulator (`liveText`) state fed by `onUpdate`. -/
structure TranscriberState where
  scriptProcessor : Bool
  inputAudioContext : Bool
  sessionPromise : Option PromiseState
  deferredSends : List EncodedChunk
  sent : List EncodedChunk
  liveText : String
deriving DecidableEq

/-- `connect()` from the source: stores a fresh (pending) session promise in
`this.sessionPromise`. -/
def connectStep (s : TranscriberState) : TranscriberState :=
  { s with sessionPromise := some .pending, deferredSends := [] }

/-- The session promise settles successfully: the handshake completes, and
every `.then` callback queued while it was pending now runs, forwarding its
chunk to `session.sendRealtimeInput`. -/
def promiseResolves (s : TranscriberState) : TranscriberState :=
  match s.sessionPromise with
  | some .pending =>
      { s with sessionPromise := some .resolved
               sent := s.sent ++ s.deferredSends
               deferredSends := [] }
  | _ => s

/-- The body of the `onaudioprocess` handler installed by `start()`: encode
the frame with `createBlob`, then
`if (this.sessionPromise) { this.sessionPromise.then(session => session.sendRealtimeInput(...)) }`.
With no promise the chunk is dropped; on a pending promise the send is queued
by `.then`; on a resolved promise it runs; on a rejected promise the `.then`
callback never runs. No path throws. -/
def audioFrame (s : TranscriberState) (data : List ℚ) : TranscriberState :=
  match s.sessionPromise with
  | none => s
  | some .pending => { s with deferredSends := s.deferredSends ++ [createBlob data] }
  | some .resolved => { s with sent := s.sent ++ [createBlob data] }
  | some .rejected => s

/-- The three teardown effects `stop()` can perform. -/
inductive TeardownAction
  | disconnectProcessor
  | closeAudioContext
  | closeSession
deriving DecidableEq

/-- The state after `stop()` from the source: each of the three guarded
blocks nulls its field. -/
def stopState (s : TranscriberState) : TranscriberState :=
  { s with scriptProcessor := false, inputAudioContext := false, sessionPromise := none }

/-- The teardown actions `stop()` performs, in program order:
`scriptProcessor.disconnect()` (stops the audio callback), then
`inputAudioContext.close()` (releases the device/tap), then
`sessionPromise.then(session => session.close())` (closes the Session).
Each is guarded by its field being non-null. -/
def stopActions (s : TranscriberState) : List TeardownAction :=
  (if s.scriptProcessor then [.disconnectProcessor] else []) ++
    (if s.inputAudioContext then [.closeAudioContext] else []) ++
      (if s.sessionPromise.isSome then [.closeSession] else [])

/-- What `startLiveRecording` in Controls.tsx produced by the time it
finished: whether `onLiveStart` reset the live transcript, whether
`transcriber.start(stream)` ran (registering the audio callback), the chunks
sent during start, and the message passed to `setError`, if any. -/
structure StartOutcome where
  liveTextReset : Bool
  audioCallbackRegistered : Bool
  framesSent : List EncodedChunk
  errorMessage : Option String
deriving DecidableEq

/-- `startLiveRecording` from Controls.tsx, with the two awaited effects as
parameters: `connectOk` is whether `await transcriber.connect()` fulfilled,
`micOk` whether `await navigator.mediaDevices.getUserMedia(...)` fulfilled.
The body runs `onLiveStart()`, then connects, then acquires the microphone,
then calls `transcriber.start(stream)`; any rejection jumps to the `catch`
block, which calls `setError(...)` — so a connect failure is reported and
`transcriber.start` never runs and no frame is sent. -/
def startLiveRecording (connectOk : Bool) (micOk : Bool) : StartOutcome :=
  if !connectOk then
    { liveTextReset := true
      audioCallbackRegistered := false
      framesSent := []
      errorMessage := some "Could not access microphone or connect to Live API." }
  else if !micOk then
    { liveTextReset := true
      audioCallbackRegistered := false
      framesSent := []
      errorMessage := some "Could not access microphone or connect to Live API." }
  else
    { liveTextReset := true
      audioCallbackRegistered := true
      framesSent := []
      errorMessage := none }

theorem b64Val_b64Char : ∀ n, n < 64 → b64Val (b64Char n) = n := by decide

theorem b64Char_ne_pad : ∀ n, n < 64 → b64Char n ≠ '=' := by decide

theorem base64_roundtrip (bs : List Nat) (h : ∀ x ∈ bs, x < 256) :
    base64Decode (base64Encode bs) = bs := by
  match bs with
  | [] => rfl
  | [a] =>
    have ha : a < 256 := h a (by simp)
    simp only [base64Encode, base64Decode, if_true]
    rw [b64Val_b64Char (a / 4) (by omega), b64Val_b64Char (a % 4 * 16) (by omega)]
    simp only [List.cons.injEq, and_true]
    omega
  | [a, b] =>
    have ha : a < 256 := h a (by simp)
    have hb : b < 256 := h b (by simp)
    have h3 : b64Char (b % 16 * 4) ≠ '=' := b64Char_ne_pad _ (by omega)
    simp only [base64Encode, base64Decode, if_neg h3, if_true]
    rw [b64Val_b64Char (a / 4) (by omega), b64Val_b64Char (a % 4 * 16 + b / 16) (by omega),
      b64Val_b64Char (b % 16 * 4) (by omega)]
    simp only [List.cons.injEq, and_true]
    omega
  | a :: b :: c :: rest =>
    have ha : a < 256 := h a (by simp)
    have hb : b < 256 := h b (by simp)
    have hc : c < 256 := h c (by simp)
    have h3 : b64Char (b % 16 * 4 + c / 64) ≠ '=' := b64Char_ne_pad _ (by omega)
    have h4 : b64Char (c % 64) ≠ '=' := b64Char_ne_pad _ (by omega)
    have ih := base64_roundtrip rest (fun x hx => h x (by simp [hx]))
    simp only [base64Encode, base64Decode, if_neg h3, if_neg h4]
    rw [b64Val_b64Char (a / 4) (by omega), b64Val_b64Char (a % 4 * 16 + b / 16) (by omega),
      b64Val_b64Char (b % 16 * 4 + c / 64) (by omega), b64Val_b64Char (c % 64) (by omega), ih]
    simp only [List.cons.injEq, and_true]
    refine ⟨by omega, by omega, by omega⟩
termination_by bs.length

theorem int16sToBytes_lt (vs : List ℤ) : ∀ x ∈ int16sToBytes vs, x < 256 := by
  induction vs with
  | nil => simp [int16sToBytes]
  | cons v vs ih =>
    intro x hx
    simp only [int16sToBytes, int16ToBytesLE, List.mem_append, List.mem_cons,
      List.not_mem_nil, or_false] at hx
    rcases hx with (rfl | rfl) | hx
    · omega
    · have h2 : v % 65536 < 65536 := Int.emod_lt_of_pos v (by norm_num)
      have h1 : (0 : ℤ) ≤ v % 65536 := Int.emod_nonneg v (by norm_num)
      omega
    · exact ih x hx

theorem decodeInt16LE_int16sToBytes (vs : List ℤ) (h : ∀ v ∈ vs, -32768 ≤ v ∧ v < 32768) :
    decodeInt16LE (int16sToBytes vs) = vs := by
  induction vs with
  | nil => rfl
  | cons v vs ih =>
    have hv := h v (by simp)
    have ht : int16sToBytes (v :: vs) =
        ((v % 65536).toNat % 256) :: ((v % 65536).toNat / 256) :: int16sToBytes vs := rfl
    rw [ht]
    simp only [decodeInt16LE, ih (fun x hx => h x (by simp [hx])), List.cons.injEq, and_true]
    split <;> omega

theorem toInt16_range (q : ℚ) : -32768 ≤ toInt16 q ∧ toInt16 q < 32768 := by
  simp only [toInt16]
  have h1 : (0 : ℤ) ≤ ratTrunc q % 65536 := Int.emod_nonneg _ (by norm_num)
  have h2 : ratTrunc q % 65536 < 65536 := Int.emod_lt_of_pos _ (by norm_num)
  split <;> omega

theorem createBlob_decode (data : List ℚ) :
    decodeInt16LE (base64Decode (createBlob data).data.data) =
      data.map fun s => toInt16 (s * 32768) := by
  have h1 : (createBlob data).data.data =
      base64Encode (int16sToBytes (data.map fun s => toInt16 (s * 32768))) := rfl
  rw [h1, base64_roundtrip _ (int16sToBytes_lt _), decodeInt16LE_int16sToBytes]
  intro v hv
  simp only [List.mem_map] at hv
  obtain ⟨s, _, rfl⟩ := hv
  exact toInt16_range _

theorem ratTrunc_sub_bounds (q : ℚ) : q - 1 < (ratTrunc q : ℚ) ∧ (ratTrunc q : ℚ) < q + 1 := by
  rcases le_or_lt 0 q with h | h
  · have e : ratTrunc q = ⌊q⌋ := by simp only [ratTrunc, if_pos h]
    have h1 : (⌊q⌋ : ℚ) ≤ q := Int.floor_le q
    have h2 : q < ⌊q⌋ + 1 := Int.lt_floor_add_one q
    rw [e]
    constructor <;> linarith
  · have e : ratTrunc q = ⌈q⌉ := by simp only [ratTrunc, if_neg (not_le.mpr h)]
    have h1 : q ≤ ⌈q⌉ := Int.le_ceil q
    have h2 : (⌈q⌉ : ℚ) < q + 1 := Int.ceil_lt_add_one q
    rw [e]
    constructor <;> linarith

theorem toInt16_eq_ratTrunc (q : ℚ) (h1 : -32768 ≤ q) (h2 : q ≤ 32767) :
    toInt16 q = ratTrunc q := by
  have hb := ratTrunc_sub_bounds q
  have hl : -32768 ≤ ratTrunc q := by
    have hq : ((-32769 : ℤ) : ℚ) < (ratTrunc q : ℚ) := by push_cast; linarith [hb.1]
    have := Int.cast_lt.mp hq
    omega
  have hr : ratTrunc q ≤ 32767 := by
    have hq : (ratTrunc q : ℚ) < ((32768 : ℤ) : ℚ) := by push_cast; linarith [hb.2]
    have := Int.cast_lt.mp hq
    omega
  simp only [toInt16]
  split <;> omega

theorem c4_sample_bound (s : ℚ) (h1 : -1 ≤ s) (h2 : s * 32768 ≤ 32767) :
    |(toInt16 (s * 32768) : ℚ) / 32768 - s| < 1 / 32768 := by
  have hx1 : (-32768 : ℚ) ≤ s * 32768 := by linarith
  rw [toInt16_eq_ratTrunc _ hx1 h2]
  have hb := ratTrunc_sub_bounds (s * 32768)
  rw [abs_lt]
  constructor
  · linarith [hb.1]
  · linarith [hb.2]

/-- Claim C1, as stated, is false: for the sample `s = 3/65536` (a value a
`Float32Array` holds exactly), `s * 32768 = 3/2`, and the encoder stores `1`
(truncation toward zero) where `round(s * 32768) = 2`. -/
theorem C1_counterexample :
    decodeInt16LE (base64Decode (createBlob [(3 : ℚ) / 65536]).data.data) ≠
      [round (((3 : ℚ) / 65536) * 32768)] := by
  rw [createBlob_decode]
  have e1 : (3 : ℚ) / 65536 * 32768 = 3 / 2 := by norm_num
  simp only [List.map_cons, List.map_nil, e1]
  have hf : ⌊(3 : ℚ) / 2⌋ = 1 := by norm_num
  have e2 : toInt16 ((3 : ℚ) / 2) = 1 := by
    simp only [toInt16, ratTrunc, if_pos (by norm_num : (0 : ℚ) ≤ 3 / 2), hf]
    norm_num
  have e3 : round ((3 : ℚ) / 2) = 2 := by norm_num [round_eq]
  rw [e2, e3]
  simp

/-- Claim C1 (amended): the Audio Frame Encoder converts each floating-point
sample `s` to the 16-bit signed integer obtained by truncating `s * 32768`
toward zero and wrapping it modulo 2^16 into `[-32768, 32767]` (JavaScript
`Int16Array` store semantics), with no clamping applied; the stored values are
exactly what base64-decoding the chunk and reading little-endian 16-bit
integers recovers. -/
theorem C1_sample_conversion (data : List ℚ) :
    decodeInt16LE (base64Decode (createBlob data).data.data) = data.map truncWrap16 := by
  rw [createBlob_decode]
  apply List.map_congr_left
  intro s _
  rcases le_or_lt 0 (s * 32768) with h | h
  · simp only [toInt16, ratTrunc, truncWrap16, if_pos h]
    generalize ⌊s * 32768⌋ = t
    split <;> omega
  · simp only [toInt16, ratTrunc, truncWrap16, if_neg (not_le.mpr h)]
    generalize ⌈s * 32768⌉ = t
    split <;> omega

/-- Claim C4: for a buffer of samples in range `-1.0 .. 1.0` (excluding the
clipping boundary where `s * 32768` exceeds 32767, which the claim sets
aside), base64-decoding the EncodedChunk's data and reinterpreting the bytes
as little-endian signed 16-bit integers reproduces every sample to within
16-bit quantization error (less than one least significant bit, 1/32768). -/
theorem C4_roundtrip (data : List ℚ) (h : ∀ s ∈ data, -1 ≤ s ∧ s * 32768 ≤ 32767) :
    List.Forall₂ (fun (v : ℤ) (s : ℚ) => |(v : ℚ) / 32768 - s| < 1 / 32768)
      (decodeInt16LE (base64Decode (createBlob data).data.data)) data := by
  rw [createBlob_decode, List.forall₂_map_left_iff]
  exact List.forall₂_same.mpr fun s hs => c4_sample_bound s (h s hs).1 (h s hs).2

/-- Witness for C4 at the concrete buffer `[1/2]`. -/
theorem C4_roundtrip_witness :
    (∀ s ∈ [(1 : ℚ) / 2], -1 ≤ s ∧ s * 32768 ≤ 32767) ∧
      List.Forall₂ (fun (v : ℤ) (s : ℚ) => |(v : ℚ) / 32768 - s| < 1 / 32768)
        (decodeInt16LE (base64Decode (createBlob [(1 : ℚ) / 2]).data.data)) [(1 : ℚ) / 2] :=
  ⟨by norm_num, C4_roundtrip _ (by norm_num)⟩

/-- Claim C10: the Audio Frame Encoder is deterministic — equal sample
buffers produce identical EncodedChunks — and every chunk carries the MIME
type string `audio/pcm;rate=16000`. (In this embedding `createBlob` is a pure
function of its argument, mirroring the source, which reads no mutable state
and never writes to its input buffer.) -/
theorem C10_encoder_deterministic (d1 d2 : List ℚ) (h : d1 = d2) :
    createBlob d1 = createBlob d2 ∧ (createBlob d1).mimeType = "audio/pcm;rate=16000" :=
  ⟨by rw [h], rfl⟩

/-- Witness for C10 at the concrete buffer `[1/4]`. -/
theorem C10_encoder_deterministic_witness :
    ([(1 : ℚ) / 4] = [(1 : ℚ) / 4]) ∧
      (createBlob [(1 : ℚ) / 4] = createBlob [(1 : ℚ) / 4] ∧
        (createBlob [(1 : ℚ) / 4]).mimeType = "audio/pcm;rate=16000") :=
  ⟨rfl, C10_encoder_deterministic _ _ rfl⟩

theorem handleLiveUpdate_ne_empty (prev t : String) (h : prev ≠ "") :
    handleLiveUpdate prev t ≠ "" := by
  simp only [handleLiveUpdate, if_neg h]
  intro hEq
  have h1 := String.length_append (prev ++ " ") t
  rw [hEq] at h1
  have h2 := String.length_append prev " "
  have h3 : (" " : String).length = 1 := rfl
  have h4 : ("" : String).length = 0 := rfl
  omega

theorem foldl_handleLiveUpdate (fs : List String) :
    ∀ acc : String, acc ≠ "" → fs.foldl handleLiveUpdate acc = joinSpaced (acc :: fs) := by
  induction fs with
  | nil => intro acc _; rfl
  | cons f rest ih =>
    intro acc h
    rw [List.foldl_cons, ih _ (handleLiveUpdate_ne_empty _ _ h)]
    cases rest with
    | nil => simp [joinSpaced, handleLiveUpdate, if_neg h]
    | cons g gs => simp [joinSpaced, handleLiveUpdate, if_neg h, String.append_assoc]

/-- Claim C2 as stated is false: delivering the fragments `""` then `"a"`
after a reset yields `"a"` (the truthiness test skips the separator after an
empty accumulated text), while the claimed space-joined concatenation is
`" a"`. -/
theorem C2_counterexample : accumulate ["", "a"] ≠ joinSpaced ["", "a"] := by
  decide

/-- Claim C2 (amended): for every sequence of non-empty fragments delivered
to the Transcript Accumulator after a reset — and the Session only ever
delivers non-empty fragment texts — the resulting live transcript is their
space-joined concatenation, with no leading or trailing space, and is `""`
for the empty sequence. -/
theorem C2_accumulate (fs : List String) (h : ∀ f ∈ fs, f ≠ "") :
    accumulate fs = joinSpaced fs := by
  cases fs with
  | nil => rfl
  | cons f rest =>
    have hf : f ≠ "" := h f (by simp)
    have e : accumulate (f :: rest) = rest.foldl handleLiveUpdate f := by
      simp only [accumulate, handleLiveStart, List.foldl_cons]
      congr 1
    rw [e, foldl_handleLiveUpdate rest f hf]

/-- Witness for C2 at the spec's own scenario fragments. -/
theorem C2_accumulate_witness :
    (∀ f ∈ ["The quick", "brown fox"], f ≠ "") ∧
      accumulate ["The quick", "brown fox"] = joinSpaced ["The quick", "brown fox"] :=
  ⟨by decide, C2_accumulate _ (by decide)⟩

/-- Claim C8 as stated is false: a message whose
`serverContent.inputTranscription.text` is the empty string contains the
field as a string, yet the truthiness test makes no `onUpdate` call. -/
theorem C8_counterexample :
    onMessageUpdates ⟨some ⟨some ⟨""⟩, none⟩⟩ = [] ∧
      onMessageUpdates ⟨some ⟨some ⟨""⟩, none⟩⟩ ≠ [""] := by
  exact ⟨rfl, by decide⟩

/-- Claim C8 (amended): for every inbound message carrying a NON-EMPTY
`serverContent.inputTranscription.text`, `onUpdate` is invoked exactly once
with exactly that fragment's text; a message with an empty text, a missing
`inputTranscription`, or a missing `serverContent` invokes no update. -/
theorem C8_update_per_fragment (m : LiveServerMessage) :
    (∀ sc t, m.serverContent = some sc → sc.inputTranscription = some t →
        t.text ≠ "" → onMessageUpdates m = [t.text]) ∧
      (∀ sc t, m.serverContent = some sc → sc.inputTranscription = some t →
        t.text = "" → onMessageUpdates m = []) ∧
      ((m.serverContent = none ∨
          ∃ sc, m.serverContent = some sc ∧ sc.inputTranscription = none) →
        onMessageUpdates m = []) := by
  refine ⟨?_, ?_, ?_⟩
  · rintro sc t h1 h2 h3
    simp [onMessageUpdates, h1, h2, h3]
  · rintro sc t h1 h2 h3
    simp [onMessageUpdates, h1, h2, h3]
  · rintro (h | ⟨sc, h1, h2⟩) <;> simp [onMessageUpdates, *]

/-- Witness for C8 at a concrete message carrying the text `"The quick"`. -/
theorem C8_update_per_fragment_witness :
    onMessageUpdates ⟨some ⟨some ⟨"The quick"⟩, none⟩⟩ = ["The quick"] :=
  (C8_update_per_fragment _).1 _ _ rfl rfl (by decide)

/-- Claim C9 as stated is false: selecting a non-record video (here an
upload) clears the live transcript even though it is not a capture start. -/
theorem C9_counterexample :
    stepLiveText (AppEvent.videoSelect .upload) "hello" = "" ∧
      AppEvent.videoSelect .upload ≠ AppEvent.liveStart := by
  exact ⟨rfl, by decide⟩

/-- Claim C9 (amended): the live transcript is cleared exactly by capture
start, by selecting a video whose source is not a recording, by clearing the
video, and by restoring a history item; every other event that touches it
(fragment arrival, selecting a recording) only extends the current text. -/
theorem C9_lifecycle (e : AppEvent) (prev : String) :
    (clearsLiveText e = true → stepLiveText e prev = "") ∧
      (clearsLiveText e = false → ∃ suffix, stepLiveText e prev = prev ++ suffix) := by
  cases e with
  | liveStart => exact ⟨fun _ => rfl, fun h => by simp [clearsLiveText] at h⟩
  | liveUpdate t =>
    refine ⟨fun h => by simp [clearsLiveText] at h, fun _ => ?_⟩
    exact ⟨(if prev = "" then "" else " ") ++ t,
      by simp [stepLiveText, handleLiveUpdate, String.append_assoc]⟩
  | videoSelect st =>
    cases st with
    | record =>
      refine ⟨fun h => by simp [clearsLiveText] at h, fun _ => ⟨"", ?_⟩⟩
      simp [stepLiveText, String.append_empty]
    | upload => exact ⟨fun _ => by simp [stepLiveText], fun h => by simp [clearsLiveText] at h⟩
    | url => exact ⟨fun _ => by simp [stepLiveText], fun h => by simp [clearsLiveText] at h⟩
    | youtube => exact ⟨fun _ => by simp [stepLiveText], fun h => by simp [clearsLiveText] at h⟩
  | clear => exact ⟨fun _ => rfl, fun h => by simp [clearsLiveText] at h⟩
  | restoreHistory => exact ⟨fun _ => rfl, fun h => by simp [clearsLiveText] at h⟩

/-- Witness for C9 at a concrete append event. -/
theorem C9_lifecycle_witness :
    clearsLiveText (AppEvent.liveUpdate "fox") = false ∧
      ∃ suffix, stepLiveText (AppEvent.liveUpdate "fox") "The quick" = "The quick" ++ suffix :=
  ⟨rfl, (C9_lifecycle _ _).2 rfl⟩

/-- Claim C3 as stated is false: a chunk sent while the Session is still
Connecting (promise held but pending, hence not Open) is not dropped — the
`.then` callback buffers it across the state boundary and forwards it to the
remote endpoint once the session opens. -/
theorem C3_counterexample :
    (connectStep ⟨true, true, none, [], [], ""⟩).sessionPromise ≠ some .resolved ∧
      createBlob [(1 : ℚ) / 2] ∈
        (promiseResolves
          (audioFrame (connectStep ⟨true, true, none, [], [], ""⟩) [(1 : ℚ) / 2])).sent := by
  constructor
  · simp [connectStep]
  · simp [connectStep, audioFrame, promiseResolves]

/-- Claim C3 (amended): a chunk sent while the transcriber holds no session
promise (before `connect()` or after `stop()`) raises no error and is
silently dropped — the state, the forwarded chunks, and the Transcript
Accumulator are all unchanged; and no send ever alters the accumulator. A
chunk sent while the promise is pending, however, is buffered and forwarded
on resolution. -/
theorem C3_drop_when_no_session (s : TranscriberState) (data : List ℚ) :
    (s.sessionPromise = none → audioFrame s data = s) ∧
      (audioFrame s data).liveText = s.liveText := by
  constructor
  · intro h
    simp [audioFrame, h]
  · rcases s with ⟨sp, ac, p, d, snt, lt⟩
    rcases p with _ | ps
    · rfl
    · cases ps <;> rfl

/-- Witness for C3 at a concrete no-session state. -/
theorem C3_drop_when_no_session_witness :
    ((⟨false, false, none, [], [], "t"⟩ : TranscriberState).sessionPromise = none) ∧
      audioFrame ⟨false, false, none, [], [], "t"⟩ [(1 : ℚ) / 2] =
        ⟨false, false, none, [], [], "t"⟩ ∧
      (audioFrame ⟨false, false, none, [], [], "t"⟩ [(1 : ℚ) / 2]).liveText = "t" :=
  ⟨rfl, (C3_drop_when_no_session _ _).1 rfl, (C3_drop_when_no_session _ _).2⟩

/-- Claim C5: `stop()` never throws (it is modelled by total functions, as
every block in its body is null-guarded), a second call in succession finds
every field nulled and performs nothing, and the Session ends Closed: the
first call issues the session close and drops the reference, and after the
second call the transcriber still holds no session. -/
theorem C5_stop_idempotent (s : TranscriberState) :
    stopState (stopState s) = stopState s ∧
      stopActions (stopState s) = [] ∧
      (stopState (stopState s)).sessionPromise = none ∧
      (s.sessionPromise.isSome = true → TeardownAction.closeSession ∈ stopActions s) := by
  refine ⟨rfl, by simp [stopActions, stopState], rfl, fun h => ?_⟩
  simp [stopActions, h]

/-- Witness for C5 at a concrete open-session state. -/
theorem C5_stop_idempotent_witness :
    ((⟨true, true, some .resolved, [], [], ""⟩ : TranscriberState).sessionPromise.isSome =
        true) ∧
      TeardownAction.closeSession ∈ stopActions ⟨true, true, some .resolved, [], [], ""⟩ :=
  ⟨rfl, (C5_stop_idempotent _).2.2.2 rfl⟩

/-- Claim C6: every invocation of `stop()` performs its teardown actions in
the order: stop the audio source callback (`scriptProcessor.disconnect()`),
then release the audio device/tap (`inputAudioContext.close()`), then close
the Session — whatever subset of resources is held, the emitted actions are
a sublist of that order, and with all three held the order is exactly that. -/
theorem C6_stop_order (s : TranscriberState) :
    List.Sublist (stopActions s)
        [TeardownAction.disconnectProcessor, TeardownAction.closeAudioContext,
          TeardownAction.closeSession] ∧
      (s.scriptProcessor = true → s.inputAudioContext = true →
        s.sessionPromise.isSome = true →
        stopActions s =
          [TeardownAction.disconnectProcessor, TeardownAction.closeAudioContext,
            TeardownAction.closeSession]) := by
  constructor
  · rcases s with ⟨sp, ac, p, d, snt, lt⟩
    cases sp <;> cases ac <;> rcases p with _ | ps <;> simp [stopActions]
  · intro h1 h2 h3
    simp [stopActions, h1, h2, h3]

/-- Witness for C6 at a fully-held state. -/
theorem C6_stop_order_witness :
    stopActions ⟨true, true, some .pending, [], [], ""⟩ =
      [TeardownAction.disconnectProcessor, TeardownAction.closeAudioContext,
        TeardownAction.closeSession] :=
  (C6_stop_order _).2 rfl rfl rfl

/-- Claim C7: whenever `connect()` rejects, `startLiveRecording` reports the
failure through `setError`, never calls `transcriber.start` (so the audio
callback registration is never invoked), and sends no frames — whatever the
microphone acquisition would have done. -/
theorem C7_connect_failure (micOk : Bool) :
    (startLiveRecording false micOk).errorMessage =
        some "Could not access microphone or connect to Live API." ∧
      (startLiveRecording false micOk).audioCallbackRegistered = false ∧
      (startLiveRecording false micOk).framesSent = [] := by
  cases micOk <;> exact ⟨rfl, rfl, rfl⟩

end VideoSum
